import Mathlib

/-!
Verification development for the tetherai budget-accounting and
call-interception core.

The Python source is embedded shallowly:

* Python `float` dollar amounts and durations become exact rationals (`ℚ`);
  all arithmetic in the source on these values is plain `+`, `*`, `/`,
  comparison and clamping, so the rational embedding is faithful up to
  floating-point rounding.
* Token counts (Python non-negative `int` counters) become `ℕ`.
* A method that mutates `self` becomes a function
  `State → args → Except (Err × State) State`: the `.ok` value is the state
  after the call, and a raised exception becomes `.error (e, s)` where `s`
  is the state of the object at the moment the exception escapes (Python
  objects survive an exception, so callers observe that state afterwards).
* The `threading.Lock` of `BudgetTracker` is modelled in a dedicated
  interleaving transition system (`Conc` section below) in which the
  lock-protected body of `record_call` is split into micro-steps and only
  the lock holder may take an in-critical-section step.
-/

namespace TetherAI

/-- Error taxonomy, from `src/tetherai/exceptions.py`.  Exception `message`
strings are presentation-only (f-string formatting of the payload) and are
not modelled; the structured payload fields are. -/
inductive TetherErr where
  | budgetExceeded (run_id : String) (budget_usd : ℚ) (spent_usd : ℚ) (last_model : String)
  | turnLimit (run_id : String) (max_turns : ℕ) (current_turn : ℕ)
  | valueError (msg : String)
  | unknownModel (model : String)
  | tetherBase (msg : String)
  deriving DecidableEq

/-- `CallRecord` dataclass from `src/tetherai/budget.py`. -/
structure CallRecord where
  input_tokens : ℕ
  output_tokens : ℕ
  model : String
  cost_usd : ℚ
  duration_ms : ℚ
  deriving DecidableEq

/-- `BudgetTracker` state, from `src/tetherai/budget.py` (`run_id`,
`max_usd`, `max_turns`, `_spent_usd`, `_turn_count`, `_calls`).  The
`threading.Lock` field has no sequential content; it is modelled in the
`Conc` section. -/
structure BudgetTracker where
  run_id : String
  max_usd : ℚ
  max_turns : Option ℕ
  spent_usd : ℚ
  turn_count : ℕ
  calls : List CallRecord
  deriving DecidableEq

/-- `BudgetTracker.__init__`. -/
def mkBudgetTracker (run_id : String) (max_usd : ℚ) (max_turns : Option ℕ) :
    BudgetTracker :=
  { run_id := run_id
    max_usd := max_usd
    max_turns := max_turns
    spent_usd := 0
    turn_count := 0
    calls := [] }

/-- `remaining_usd` property: `max(0.0, self.max_usd - self._spent_usd)`. -/
def BudgetTracker.remaining_usd (t : BudgetTracker) : ℚ :=
  max 0 (t.max_usd - t.spent_usd)

/-- `is_exceeded` property: `self._spent_usd >= self.max_usd`. -/
def BudgetTracker.is_exceeded (t : BudgetTracker) : Bool :=
  t.max_usd ≤ t.spent_usd

/-- `BudgetTracker.pre_check`, lines 52-62 of `budget.py`:
`projected = self._spent_usd + estimated_cost`; raises `BudgetExceededError`
(carrying run id, ceiling, projected spend and the model) when
`projected >= self.max_usd`; the method body performs no assignment, so the
success value is the unchanged tracker. -/
def BudgetTracker.pre_check (t : BudgetTracker) (estimated_cost : ℚ)
    (model : String) : Except (TetherErr × BudgetTracker) BudgetTracker :=
  let projected := t.spent_usd + estimated_cost
  if t.max_usd ≤ projected then
    .error (.budgetExceeded t.run_id t.max_usd projected model, t)
  else
    .ok t

/-- Truth value of the turn-limit guard in `record_call`:
`not (self.max_turns is not None and self._turn_count >= self.max_turns)`. -/
def BudgetTracker.turnOk (t : BudgetTracker) : Bool :=
  match t.max_turns with
  | some l => t.turn_count < l
  | none => true

/-- `BudgetTracker.record_call`, lines 64-98 of `budget.py`:
reject negative cost (`ValueError`), then — under the lock — reject when
the turn limit is already reached (`TurnLimitError` carrying
`current_turn = self._turn_count + 1`, raised before any mutation),
otherwise add the cost, increment the turn counter, clamp `_spent_usd`
down to `max_usd` when it overshot, and append a `CallRecord`. -/
def BudgetTracker.record_call (t : BudgetTracker) (input_tokens output_tokens : ℕ)
    (model : String) (cost_usd duration_ms : ℚ) :
    Except (TetherErr × BudgetTracker) BudgetTracker :=
  if cost_usd < 0 then
    .error (.valueError "cost_usd must be non-negative", t)
  else
    let committed : BudgetTracker :=
      let spent := t.spent_usd + cost_usd
      { t with
        spent_usd := if t.max_usd < spent then t.max_usd else spent
        turn_count := t.turn_count + 1
        calls := t.calls ++ [⟨input_tokens, output_tokens, model, cost_usd, duration_ms⟩] }
    match t.max_turns with
    | some l =>
        if l ≤ t.turn_count then
          .error (.turnLimit t.run_id l (t.turn_count + 1), t)
        else
          .ok committed
    | none => .ok committed

/-- Run a sequence of `record_call` commits; a commit's arguments have
exactly the shape of the `CallRecord` it appends, so the argument list is a
list of `CallRecord`s. -/
def runCalls (t : BudgetTracker) : List CallRecord →
    Except (TetherErr × BudgetTracker) BudgetTracker
  | [] => .ok t
  | a :: rest =>
    match t.record_call a.input_tokens a.output_tokens a.model a.cost_usd a.duration_ms with
    | .ok t' => runCalls t' rest
    | .error e => .error e

/-- Total cost of a sequence of commit arguments. -/
def sumCosts (args : List CallRecord) : ℚ :=
  (args.map (fun a => a.cost_usd)).sum

/-- Trackers reachable from a freshly constructed `BudgetTracker` by
successful `record_call` commits.  (`pre_check`, the property readers and
`get_summary` assign nothing, and a failed `record_call` raises before any
mutation, so successful commits are the only state changes.) -/
inductive ReachableTracker : BudgetTracker → Prop where
  | init (run_id : String) (max_usd : ℚ) (max_turns : Option ℕ) :
      ReachableTracker (mkBudgetTracker run_id max_usd max_turns)
  | step {t t' : BudgetTracker} (i o : ℕ) (m : String) (c d : ℚ) :
      ReachableTracker t → t.record_call i o m c d = .ok t' → ReachableTracker t'

/-! ### Pricing registry, from `src/tetherai/pricing.py` -/

/-- The module-level `BUNDLED_PRICING` table: canonical model identifier to
`(input cost, output cost)` per 1000 tokens.  Decimal float literals of the
source are written as exact rationals. -/
def BUNDLED_PRICING : List (String × ℚ × ℚ) :=
  [ ("gpt-4.1", (3/1000, 12/1000)),
    ("gpt-4.1-mini", (8/10000, 32/10000)),
    ("gpt-4.1-nano", (2/10000, 8/10000)),
    ("gpt-4o", (25/10000, 1/100)),
    ("gpt-4o-mini", (15/100000, 6/10000)),
    ("gpt-4-turbo", (1/100, 3/100)),
    ("gpt-4", (3/100, 6/100)),
    ("gpt-3.5-turbo", (5/10000, 2/1000)),
    ("claude-3-5-sonnet-20241022", (3/1000, 15/1000)),
    ("claude-3-5-sonnet", (3/1000, 15/1000)),
    ("claude-3-opus-20240229", (15/1000, 75/1000)),
    ("claude-3-opus", (15/1000, 75/1000)),
    ("claude-3-sonnet-20240229", (3/1000, 15/1000)),
    ("claude-3-sonnet", (3/1000, 15/1000)),
    ("claude-3-haiku-20240307", (25/100000, 125/100000)),
    ("claude-3-haiku", (25/100000, 125/100000)),
    ("gemini-1.5-pro", (125/100000, 5/1000)),
    ("gemini-1.5-flash", (75/1000000, 3/10000)),
    ("gemini-1.5-flash-8b", (375/10000000, 15/100000)),
    ("llama-3-70b", (8/10000, 8/10000)),
    ("llama-3-8b", (2/10000, 2/10000)),
    ("mixtral-8x7b", (24/100000, 24/100000)),
    ("mistral-small", (1/1000, 3/1000)),
    ("mistral-medium", (24/10000, 72/10000)),
    ("mistral-large", (4/1000, 12/1000)) ]

/-- The module-level `MODEL_ALIASES` table. -/
def MODEL_ALIASES : List (String × String) :=
  [ ("gpt4o", "gpt-4o"),
    ("gpt-4o", "gpt-4o"),
    ("gpt4o-mini", "gpt-4o-mini"),
    ("gpt-4-turbo", "gpt-4-turbo"),
    ("gpt4", "gpt-4"),
    ("gpt-4", "gpt-4"),
    ("gpt-3.5-turbo", "gpt-3.5-turbo"),
    ("claude-sonnet", "claude-3-5-sonnet-20241022"),
    ("claude-3.5-sonnet", "claude-3-5-sonnet-20241022"),
    ("claude-opus", "claude-3-opus-20240229"),
    ("claude-3-opus", "claude-3-opus-20240229"),
    ("claude-sonnet-20240229", "claude-3-sonnet-20240229"),
    ("claude-3-sonnet-20240229", "claude-3-sonnet-20240229"),
    ("claude-haiku", "claude-3-haiku-20240307"),
    ("claude-3-haiku", "claude-3-haiku-20240307") ]

/-- `PricingRegistry` state.  `custom_models` is the `_custom_models` dict
(a partial map, updated by key assignment); `bundled` is the per-instance
`_bundled = BUNDLED_PRICING.copy()`.  The external `litellm` collaborator
(only consulted when `source == "litellm"` and both overlay and bundled
table miss) is not part of this repository; it is modelled as an oracle
field giving the outcome of `_get_litellm_cost model direction`. -/
structure PricingRegistry where
  source : String
  custom_models : String → Option (ℚ × ℚ)
  bundled : List (String × ℚ × ℚ)
  litellm_cost : String → String → Except TetherErr ℚ

/-- `PricingRegistry.__init__` (plus the litellm oracle). -/
def mkPricingRegistry (source : String)
    (litellm_cost : String → String → Except TetherErr ℚ) : PricingRegistry :=
  { source := source
    custom_models := fun _ => none
    bundled := BUNDLED_PRICING
    litellm_cost := litellm_cost }

/-- Python `str.lower()`, written directly on the character list (the model
identifiers in play are ASCII, where `Char.toLower` agrees with Python). -/
def pyLower (s : String) : String := ⟨s.data.map Char.toLower⟩

/-- Python `str.strip()`: drop leading and trailing whitespace. -/
def pyStrip (s : String) : String :=
  ⟨((s.data.dropWhile Char.isWhitespace).reverse.dropWhile Char.isWhitespace).reverse⟩

/-- `resolve_model_alias`: normalize with `model.lower().strip()`, look up
the alias table, pass the original string through unchanged on a miss. -/
def resolve_model_alias (model : String) : String :=
  let normalized := pyStrip (pyLower model)
  (MODEL_ALIASES.lookup normalized).getD model

/-- `get_input_cost`: resolve the alias, then overlay, then bundled table,
then the litellm fallback when configured, else `UnknownModelError`
carrying the original model string. -/
def PricingRegistry.get_input_cost (r : PricingRegistry) (model : String) :
    Except TetherErr ℚ :=
  let resolved := resolve_model_alias model
  match r.custom_models resolved with
  | some p => .ok p.1
  | none =>
    match r.bundled.lookup resolved with
    | some p => .ok p.1
    | none =>
      if r.source = "litellm" then r.litellm_cost model "input"
      else .error (.unknownModel model)

/-- `get_output_cost`: same lookup chain as `get_input_cost`, second
component. -/
def PricingRegistry.get_output_cost (r : PricingRegistry) (model : String) :
    Except TetherErr ℚ :=
  let resolved := resolve_model_alias model
  match r.custom_models resolved with
  | some p => .ok p.2
  | none =>
    match r.bundled.lookup resolved with
    | some p => .ok p.2
    | none =>
      if r.source = "litellm" then r.litellm_cost model "output"
      else .error (.unknownModel model)

/-- `estimate_call_cost`:
`get_input_cost(model)*input_tokens/1000 + get_output_cost(model)*output_tokens/1000`;
an exception from either lookup propagates. -/
def PricingRegistry.estimate_call_cost (r : PricingRegistry) (model : String)
    (input_tokens output_tokens : ℕ) : Except TetherErr ℚ := do
  let input_cost ← r.get_input_cost model
  let output_cost ← r.get_output_cost model
  pure (input_cost * input_tokens / 1000 + output_cost * output_tokens / 1000)

/-- `register_custom_model`: `self._custom_models[model] = (input_cost, output_cost)`
— a dict assignment under the raw (unresolved) key. -/
def PricingRegistry.register_custom_model (r : PricingRegistry) (model : String)
    (input_cost output_cost : ℚ) : PricingRegistry :=
  { r with custom_models := fun m =>
      if m = model then some (input_cost, output_cost) else r.custom_models m }

/-! ### Spans and the trace collector, from `src/tetherai/trace.py`

Only the parts the interceptor touches are modelled.  `span_id` (a random
uuid), `timestamp` (wall clock), `parent_span_id` and `metadata` are
environment-dependent identity/bookkeeping fields never read by the code
under verification and are omitted. -/

/-- `Span` dataclass fields written or read by the interceptor. -/
structure Span where
  run_id : String
  duration_ms : ℚ
  span_type : String
  model : Option String
  input_tokens : Option ℕ
  output_tokens : Option ℕ
  cost_usd : Option ℚ
  status : String
  input_preview : Option String
  output_preview : Option String
  deriving DecidableEq

/-- `Trace`: the ordered span list of one run (fields unrelated to the
interceptor path — budget snapshot and timestamps — omitted). -/
structure Trace where
  run_id : String
  spans : List Span
  deriving DecidableEq

/-- `TraceCollector`: holds the optional active trace. -/
structure TraceCollector where
  current_trace : Option Trace
  deriving DecidableEq

/-- `TraceCollector.add_span`: append to the active trace if one exists,
silently drop the span otherwise. -/
def TraceCollector.add_span (c : TraceCollector) (s : Span) : TraceCollector :=
  match c.current_trace with
  | some tr => { current_trace := some { tr with spans := tr.spans ++ [s] } }
  | none => c

/-- In Python the interceptor keeps mutating the very `Span` object it
already appended to the active trace (object aliasing); in the pure
embedding this is an update of the last span of the active trace.  When no
trace is active the appended span was dropped and the mutation is
unobservable, matching the no-op here. -/
def TraceCollector.updateLastSpan (c : TraceCollector) (f : Span → Span) :
    TraceCollector :=
  match c.current_trace with
  | some tr =>
    { current_trace := some
        ({ tr with spans := tr.spans.dropLast ++ (tr.spans.getLast?.map f).toList }) }
  | none => c

/-! ### Interceptor call-boundary orchestration, from
`src/tetherai/interceptor.py`

`_intercept_call` (and its crewai sibling `_intercept_crewai_call`) touch
four collaborators.  The ones embedded above (`BudgetTracker`,
`PricingRegistry`, the trace collector) are used directly; the two genuinely
external inputs are passed as parameters:

* `countRes` — outcome of `token_counter.count_messages(messages, model)`
  (`.error` when it raised; the interceptor falls back to `0` tokens);
* `invoke` — outcome of calling the wrapped operation (`.error` for a raised
  exception, `.ok` for a response carrying the optional
  `usage = (prompt_tokens, completion_tokens)` pair and optional first-choice
  message content).

Wall-clock durations are opaque inputs (`dur`), as is the 200-character
input preview computed from `messages`. -/

/-- The wrapped operation's response, as far as the interceptor reads it. -/
structure Response where
  usage : Option (ℕ × ℕ)
  content : Option String
  deriving DecidableEq

/-- An exception escaping the intercepted call: either a TetherAI
condition, or the wrapped operation's own exception re-raised. -/
inductive CallErr where
  | tether (e : TetherErr)
  | wrapped
  deriving DecidableEq

deriving instance DecidableEq for Except

/-- Observable outcome of one intercepted call: tracker and collector
afterwards, the returned value or escaped exception, and whether the
wrapped operation was invoked at all. -/
structure InterceptOutcome where
  tracker : BudgetTracker
  collector : TraceCollector
  result : Except CallErr Response
  invoked : Bool
  deriving DecidableEq

/-- `input_tokens` after the counting step: the count, or `0` when the
token counter raised (`except Exception: input_tokens = 0`). -/
def tokensOf (countRes : Except Unit ℕ) : ℕ :=
  match countRes with
  | .ok n => n
  | .error _ => 0

/-- The `estimated_total_cost` block: input cost on `input_tokens` plus
output cost on `estimated_output_tokens = input_tokens * 4`, with the whole
computation falling back to `0` when the pricing lookup raised. -/
def estimatedCost (reg : PricingRegistry) (model : String) (input_tokens : ℕ) : ℚ :=
  match (do
      let i ← reg.get_input_cost model
      let o ← reg.get_output_cost model
      pure (i * input_tokens / 1000 + o * (input_tokens * 4) / 1000) :
      Except TetherErr ℚ) with
  | .ok q => q
  | .error _ => 0

/-- Usage extraction of `_intercept_call`:
`(actual_input_tokens, output_tokens)` from `response.usage` when present
(`prompt_tokens` defaulting to the estimate, `completion_tokens` to 0),
else `(input_tokens, 0)`. -/
def usageOf (input_tokens : ℕ) (resp : Response) : ℕ × ℕ :=
  match resp.usage with
  | some pc => pc
  | none => (input_tokens, 0)

/-- Usage extraction of `_intercept_crewai_call`: like `usageOf`, but when
the response has no usage attribute it additionally consults the provider's
`get_token_usage_summary()` (an external collaborator, passed here as the
optional `summary` pair) before falling back to `(input_tokens, 0)`. -/
def crewaiUsageOf (input_tokens : ℕ) (resp : Response)
    (summary : Option (ℕ × ℕ)) : ℕ × ℕ :=
  match resp.usage with
  | some pc => pc
  | none =>
    match summary with
    | some pc => pc
    | none => (input_tokens, 0)

/-- `LLMInterceptor._intercept_call`, lines 364-448 of `interceptor.py`:
count tokens (fallback 0) → estimate cost (fallback 0) → `pre_check`
(a `BudgetExceededError` propagates, before any span exists and without
invoking) → open a span and add it to the active trace → invoke (an
exception marks the span "error" and re-raises, nothing is charged) → on
success read usage, price the call, update the span, and commit via
`record_call` — the whole post-invocation block sits in
`try: ... except Exception: pass`, so any exception it raises (including
`record_call`'s) is swallowed and the response is returned. -/
def interceptCall (reg : PricingRegistry) (tracker : BudgetTracker)
    (collector : TraceCollector) (model : String) (countRes : Except Unit ℕ)
    (invoke : Except Unit Response) (dur : ℚ) (preview : Option String) :
    InterceptOutcome :=
  let input_tokens := tokensOf countRes
  let estimated_total_cost := estimatedCost reg model input_tokens
  match tracker.pre_check estimated_total_cost model with
  | .error (e, t') => ⟨t', collector, .error (.tether e), false⟩
  | .ok t1 =>
    let span : Span :=
      { run_id := t1.run_id
        duration_ms := 0
        span_type := "llm_call"
        model := some model
        input_tokens := some input_tokens
        output_tokens := none
        cost_usd := none
        status := "ok"
        input_preview := preview
        output_preview := none }
    let col1 := collector.add_span span
    match invoke with
    | .error _ =>
      ⟨t1, col1.updateLastSpan (fun s => { s with status := "error", duration_ms := dur }),
        .error .wrapped, true⟩
    | .ok resp =>
      let actual_input_tokens := (usageOf input_tokens resp).1
      let output_tokens := (usageOf input_tokens resp).2
      match reg.estimate_call_cost model actual_input_tokens output_tokens with
      | .error _ => ⟨t1, col1, .ok resp, true⟩
      | .ok cost_usd =>
        let col2 := col1.updateLastSpan (fun s =>
          { s with
            output_tokens := some output_tokens
            input_tokens := some actual_input_tokens
            cost_usd := some cost_usd
            duration_ms := dur
            status := "ok"
            output_preview := resp.content.map (fun c => c.take 200) })
        match t1.record_call actual_input_tokens output_tokens model cost_usd dur with
        | .ok t2 => ⟨t2, col2, .ok resp, true⟩
        | .error (_, t2) => ⟨t2, col2, .ok resp, true⟩

/-- `LLMInterceptor._intercept_crewai_call`, lines 136-227 of
`interceptor.py`: same pipeline as `interceptCall` up to the invocation;
the post-invocation block differs in its usage fallback (the provider
summary) and in its exception handling:
`except BudgetExceededError: raise` then `except Exception: pass`, so of
the exceptions the commit step can raise only a `BudgetExceededError`
would propagate and everything else is swallowed. -/
def interceptCrewaiCall (reg : PricingRegistry) (tracker : BudgetTracker)
    (collector : TraceCollector) (model : String) (countRes : Except Unit ℕ)
    (invoke : Except Unit Response) (summary : Option (ℕ × ℕ)) (dur : ℚ)
    (preview : Option String) : InterceptOutcome :=
  let input_tokens := tokensOf countRes
  let estimated_total_cost := estimatedCost reg model input_tokens
  match tracker.pre_check estimated_total_cost model with
  | .error (e, t') => ⟨t', collector, .error (.tether e), false⟩
  | .ok t1 =>
    let span : Span :=
      { run_id := t1.run_id
        duration_ms := 0
        span_type := "llm_call"
        model := some model
        input_tokens := some input_tokens
        output_tokens := none
        cost_usd := none
        status := "ok"
        input_preview := preview
        output_preview := none }
    let col1 := collector.add_span span
    match invoke with
    | .error _ =>
      ⟨t1, col1.updateLastSpan (fun s => { s with status := "error", duration_ms := dur }),
        .error .wrapped, true⟩
    | .ok resp =>
      let actual_input_tokens := (crewaiUsageOf input_tokens resp summary).1
      let output_tokens := (crewaiUsageOf input_tokens resp summary).2
      match reg.estimate_call_cost model actual_input_tokens output_tokens with
      | .error _ => ⟨t1, col1, .ok resp, true⟩
      | .ok cost_usd =>
        let col2 := col1.updateLastSpan (fun s =>
          { s with
            output_tokens := some output_tokens
            input_tokens := some actual_input_tokens
            cost_usd := some cost_usd
            duration_ms := dur
            status := "ok" })
        match t1.record_call actual_input_tokens output_tokens model cost_usd dur with
        | .ok t2 => ⟨t2, col2, .ok resp, true⟩
        | .error (e, t2) =>
          match e with
          | .budgetExceeded a b c d => ⟨t2, col2, .error (.tether (.budgetExceeded a b c d)), true⟩
          | _ => ⟨t2, col2, .ok resp, true⟩

/-! ### Interleaved concurrent commits, from `budget.py` lines 27-30, 75-98

`BudgetTracker.record_call` wraps its read-modify-write of `_spent_usd`,
`_turn_count` and `_calls` in `with self._lock`.  To check the concurrency
claim we model N threads, each performing K commits of the same cost `C`
against one tracker (the claim's configuration: no turn limit, non-negative
cost, so the guards at the top of `record_call` pass).  The lock-protected
body is split into micro-steps at the granularity of its Python statements
— in particular `self._spent_usd += cost_usd` is a separate read of
`_spent_usd` into a temporary followed by a write, the interleaving that
produces a lost update when unprotected.  The transition relation lets a
thread take an in-critical-section step only while it holds the lock, and
acquire it only when free: exactly the guarantee `threading.Lock` gives. -/

namespace Conc

/-- Control state of one thread: how many of its commits have completed,
and — while inside `record_call`'s critical section — which statement runs
next (`reading`: about to read `_spent_usd`; `adding`: holds the read value
`tmp`, about to write `_spent_usd = tmp + C`; `bumping`: about to increment
`_turn_count`; `committing`: about to clamp, append the record and release
the lock). -/
inductive Phase where
  | outside (done : ℕ)
  | reading (done : ℕ)
  | adding (done : ℕ) (tmp : ℚ)
  | bumping (done : ℕ)
  | committing (done : ℕ)
  deriving DecidableEq

/-- Completed-commit count of a thread, regardless of phase. -/
def Phase.doneOf : Phase → ℕ
  | .outside d => d
  | .reading d => d
  | .adding d _ => d
  | .bumping d => d
  | .committing d => d

/-- Shared state: the tracker fields the critical section touches
(`_calls` abstracted to its length), the lock owner, and each thread's
control state. -/
structure CState (N : ℕ) where
  spent : ℚ
  turn : ℕ
  ncalls : ℕ
  lock : Option (Fin N)
  th : Fin N → Phase

/-- Initial state: fresh tracker, lock free, no thread started. -/
def initC (N : ℕ) : CState N :=
  { spent := 0, turn := 0, ncalls := 0, lock := none, th := fun _ => .outside 0 }

/-- One scheduler step: some thread either acquires the free lock to start
its next commit (while it still has commits left), or — holding the lock —
executes the next statement of `record_call`'s critical section with
commit cost `C` against ceiling `maxq`. -/
inductive CStep (N K : ℕ) (C maxq : ℚ) : CState N → CState N → Prop where
  | acquire {s : CState N} (i : Fin N) (d : ℕ) :
      s.th i = .outside d → d < K → s.lock = none →
      CStep N K C maxq s
        { s with lock := some i, th := Function.update s.th i (.reading d) }
  | read {s : CState N} (i : Fin N) (d : ℕ) :
      s.th i = .reading d → s.lock = some i →
      CStep N K C maxq s
        { s with th := Function.update s.th i (.adding d s.spent) }
  | add {s : CState N} (i : Fin N) (d : ℕ) (tmp : ℚ) :
      s.th i = .adding d tmp → s.lock = some i →
      CStep N K C maxq s
        { s with spent := tmp + C, th := Function.update s.th i (.bumping d) }
  | bump {s : CState N} (i : Fin N) (d : ℕ) :
      s.th i = .bumping d → s.lock = some i →
      CStep N K C maxq s
        { s with turn := s.turn + 1, th := Function.update s.th i (.committing d) }
  | commit {s : CState N} (i : Fin N) (d : ℕ) :
      s.th i = .committing d → s.lock = some i →
      CStep N K C maxq s
        { spent := if maxq < s.spent then maxq else s.spent
          turn := s.turn
          ncalls := s.ncalls + 1
          lock := none
          th := Function.update s.th i (.outside (d + 1)) }

/-- States reachable from the initial state under arbitrary scheduling. -/
inductive CReach (N K : ℕ) (C maxq : ℚ) : CState N → Prop where
  | init : CReach N K C maxq (initC N)
  | step {s s' : CState N} :
      CReach N K C maxq s → CStep N K C maxq s s' → CReach N K C maxq s'

/-- Total number of commits completed across all threads. -/
def totalDone {N : ℕ} (s : CState N) : ℕ :=
  ∑ i, (s.th i).doneOf

/-- The inductive invariant: with the lock free every thread is outside the
critical section and the shared state reflects exactly the completed
commits (`spent = min(done·C, maxq)`); with the lock held by `i`, all other
threads are outside and the shared state is the pre-state of `i`'s commit
advanced to exactly the statement its program counter points at. -/
def Inv {N : ℕ} (C maxq : ℚ) (s : CState N) : Prop :=
  (s.lock = none →
    (∀ i, ∃ d, s.th i = .outside d) ∧
    s.spent = min ((totalDone s : ℚ) * C) maxq ∧
    s.turn = totalDone s ∧ s.ncalls = totalDone s) ∧
  (∀ i, s.lock = some i →
    (∀ j, j ≠ i → ∃ d, s.th j = .outside d) ∧
    ((∃ d, s.th i = .reading d) →
      s.spent = min ((totalDone s : ℚ) * C) maxq ∧
      s.turn = totalDone s ∧ s.ncalls = totalDone s) ∧
    (∀ d tmp, s.th i = .adding d tmp →
      tmp = s.spent ∧ s.spent = min ((totalDone s : ℚ) * C) maxq ∧
      s.turn = totalDone s ∧ s.ncalls = totalDone s) ∧
    ((∃ d, s.th i = .bumping d) →
      s.spent = min ((totalDone s : ℚ) * C) maxq + C ∧
      s.turn = totalDone s ∧ s.ncalls = totalDone s) ∧
    ((∃ d, s.th i = .committing d) →
      s.spent = min ((totalDone s : ℚ) * C) maxq + C ∧
      s.turn = totalDone s + 1 ∧ s.ncalls = totalDone s) ∧
    (∀ d, s.th i ≠ .outside d))

/-! A concrete complete execution (one thread, one commit of cost 1 against
ceiling 3), written out state by state exactly as the step constructors
build it; used to instantiate the schedule-independence theorem. -/

def cs0 : CState 1 := initC 1

def cs1 : CState 1 :=
  { cs0 with lock := some 0, th := Function.update cs0.th 0 (.reading 0) }

def cs2 : CState 1 :=
  { cs1 with th := Function.update cs1.th 0 (.adding 0 cs1.spent) }

def cs3 : CState 1 :=
  { cs2 with spent := cs1.spent + 1, th := Function.update cs2.th 0 (.bumping 0) }

def cs4 : CState 1 :=
  { cs3 with turn := cs3.turn + 1, th := Function.update cs3.th 0 (.committing 0) }

def cs5 : CState 1 :=
  { spent := if 3 < cs4.spent then 3 else cs4.spent
    turn := cs4.turn
    ncalls := cs4.ncalls + 1
    lock := none
    th := Function.update cs4.th 0 (.outside 1) }

end Conc

/-! ### Concrete fixtures used by counterexamples and witnesses -/

/-- A litellm oracle standing for `litellm` being unavailable: every
delegated lookup fails with `UnknownModelError`.  (The registries below use
`source = "bundled"`, so this branch is never reached.) -/
def oracle0 : String → String → Except TetherErr ℚ :=
  fun m _ => .error (.unknownModel m)

/-- `get_pricing_registry()` with the default `"bundled"` source. -/
def reg0 : PricingRegistry := mkPricingRegistry "bundled" oracle0

/-- A tracker whose turn limit is already exhausted (`max_turns = 0`) but
whose dollar budget is wide open. -/
def tracker0 : BudgetTracker := mkBudgetTracker "run" 10 (some 0)

/-- A successful wrapped-call response reporting usage of 100 prompt and 50
completion tokens. -/
def resp0 : Response := ⟨some (100, 50), none⟩

/-- A collector with an active, empty trace. -/
def col0 : TraceCollector := ⟨some ⟨"run", []⟩⟩

/-! ## Theorems -/

/-! ### Ledger lemmas -/

/-- The tracker a successful `record_call` returns, in closed form. -/
lemma record_call_ok_cases {t t' : BudgetTracker} {i o : ℕ} {m : String} {c d : ℚ}
    (h : t.record_call i o m c d = .ok t') :
    ¬ c < 0 ∧ t.turnOk = true ∧
      t' = { t with
              spent_usd :=
                if t.max_usd < t.spent_usd + c then t.max_usd else t.spent_usd + c
              turn_count := t.turn_count + 1
              calls := t.calls ++ [⟨i, o, m, c, d⟩] } := by
  unfold BudgetTracker.record_call at h
  by_cases hc : c < 0
  · simp [hc] at h
  · rw [if_neg hc] at h
    cases hmt : t.max_turns with
    | none =>
      rw [hmt] at h
      simp only [Except.ok.injEq] at h
      exact ⟨hc, by simp [BudgetTracker.turnOk, hmt], h.symm⟩
    | some l =>
      rw [hmt] at h
      by_cases hl : l ≤ t.turn_count
      · simp [hl] at h
      · simp only [if_neg hl, Except.ok.injEq] at h
        refine ⟨hc, ?_, h.symm⟩
        simp only [BudgetTracker.turnOk, hmt, decide_eq_true_eq]
        omega

/-- `record_call` succeeds whenever the cost is non-negative and the turn
guard passes, and the result is the committed tracker. -/
lemma record_call_ok {t : BudgetTracker} {i o : ℕ} {m : String} {c d : ℚ}
    (hc : ¬ c < 0) (ht : t.turnOk = true) :
    t.record_call i o m c d =
      .ok { t with
              spent_usd :=
                if t.max_usd < t.spent_usd + c then t.max_usd else t.spent_usd + c
              turn_count := t.turn_count + 1
              calls := t.calls ++ [⟨i, o, m, c, d⟩] } := by
  unfold BudgetTracker.record_call
  rw [if_neg hc]
  cases hmt : t.max_turns with
  | none => rfl
  | some l =>
    have hl : ¬ l ≤ t.turn_count := by
      simp only [BudgetTracker.turnOk, hmt, decide_eq_true_eq] at ht
      omega
    simp only [if_neg hl]

/-- A failed `record_call` carries the tracker unchanged: both guard
exceptions are raised before any assignment. -/
lemma record_call_error_cases {t t₂ : BudgetTracker} {i o : ℕ} {m : String}
    {c d : ℚ} {e : TetherErr} (h : t.record_call i o m c d = .error (e, t₂)) :
    t₂ = t := by
  unfold BudgetTracker.record_call at h
  by_cases hc : c < 0
  · rw [if_pos hc] at h
    simp only [Except.error.injEq, Prod.mk.injEq] at h
    exact h.2.symm
  · rw [if_neg hc] at h
    cases hmt : t.max_turns with
    | none => rw [hmt] at h; simp at h
    | some l =>
      rw [hmt] at h
      by_cases hl : l ≤ t.turn_count
      · simp only [if_pos hl, Except.error.injEq, Prod.mk.injEq] at h
        exact h.2.symm
      · simp only [if_neg hl] at h; simp at h

lemma sumCosts_cons (a : CallRecord) (rest : List CallRecord) :
    sumCosts (a :: rest) = a.cost_usd + sumCosts rest := by
  simp [sumCosts]

lemma sumCosts_nonneg {args : List CallRecord}
    (h : ∀ a ∈ args, 0 ≤ a.cost_usd) : 0 ≤ sumCosts args := by
  induction args with
  | nil => simp [sumCosts]
  | cons a rest ih =>
    rw [sumCosts_cons]
    have ha := h a (by simp)
    have := ih (fun b hb => h b (by simp [hb]))
    linarith

/-- Metadata preserved by a run of successful commits: run id, ceiling and
turn limit are never assigned; the turn counter advances by the number of
commits and the ledger extends by exactly the committed records. -/
lemma runCalls_ok_meta {t t' : BudgetTracker} {args : List CallRecord}
    (h : runCalls t args = .ok t') :
    t'.run_id = t.run_id ∧ t'.max_usd = t.max_usd ∧ t'.max_turns = t.max_turns ∧
      t'.turn_count = t.turn_count + args.length ∧ t'.calls = t.calls ++ args := by
  induction args generalizing t with
  | nil =>
    simp only [runCalls, Except.ok.injEq] at h
    simp [h]
  | cons a rest ih =>
    simp only [runCalls] at h
    cases hrc : t.record_call a.input_tokens a.output_tokens a.model a.cost_usd a.duration_ms with
    | error e => rw [hrc] at h; simp at h
    | ok t1 =>
      rw [hrc] at h
      obtain ⟨-, -, ht1⟩ := record_call_ok_cases hrc
      obtain ⟨h1, h2, h3, h4, h5⟩ := ih h
      subst ht1
      refine ⟨h1, h2, h3, ?_, ?_⟩
      · simp only [h4]; simp [List.length_cons]; omega
      · simp only [h5]; simp

/-- Generalised accumulation lemma: from any tracker, a sequence of
non-negative-cost commits whose total still fits under the ceiling and
whose length still fits under the turn limit commits cleanly: no clamp
fires and spend/turns add up. -/
lemma runCalls_accumulates {t : BudgetTracker} {args : List CallRecord}
    (hc : ∀ a ∈ args, 0 ≤ a.cost_usd)
    (hsum : t.spent_usd + sumCosts args ≤ t.max_usd)
    (hturn : ∀ l, t.max_turns = some l → t.turn_count + args.length ≤ l) :
    ∃ t', runCalls t args = .ok t' ∧
      t'.spent_usd = t.spent_usd + sumCosts args ∧
      t'.turn_count = t.turn_count + args.length := by
  induction args generalizing t with
  | nil => exact ⟨t, rfl, by simp [sumCosts], by simp⟩
  | cons a rest ih =>
    have ha : 0 ≤ a.cost_usd := hc a (by simp)
    have hrest : 0 ≤ sumCosts rest :=
      sumCosts_nonneg (fun b hb => hc b (by simp [hb]))
    rw [sumCosts_cons] at hsum
    have hnc : ¬ a.cost_usd < 0 := not_lt.mpr ha
    have hok : t.turnOk = true := by
      unfold BudgetTracker.turnOk
      cases hmt : t.max_turns with
      | none => rfl
      | some l =>
        have := hturn l hmt
        simp only [List.length_cons] at this
        simp only [decide_eq_true_eq]
        omega
    have hstep := @record_call_ok t a.input_tokens a.output_tokens a.model
      a.cost_usd a.duration_ms hnc hok
    have hnoclamp : ¬ t.max_usd < t.spent_usd + a.cost_usd := by
      push_neg; linarith
    set t1 : BudgetTracker :=
      { t with
        spent_usd :=
          if t.max_usd < t.spent_usd + a.cost_usd then t.max_usd
          else t.spent_usd + a.cost_usd
        turn_count := t.turn_count + 1
        calls := t.calls ++ [⟨a.input_tokens, a.output_tokens, a.model,
          a.cost_usd, a.duration_ms⟩] } with ht1
    have hspent1 : t1.spent_usd = t.spent_usd + a.cost_usd := by
      rw [ht1]; simp [hnoclamp]
    have hmax1 : t1.max_usd = t.max_usd := by rw [ht1]
    have hmt1 : t1.max_turns = t.max_turns := by rw [ht1]
    have htc1 : t1.turn_count = t.turn_count + 1 := by rw [ht1]
    obtain ⟨t', hrun, hs, htn⟩ := @ih t1
      (fun b hb => hc b (by simp [hb]))
      (by rw [hspent1, hmax1]; linarith)
      (by
        intro l hl
        rw [hmt1] at hl
        have := hturn l hl
        simp only [List.length_cons] at this
        rw [htc1]
        omega)
    refine ⟨t', ?_, ?_, ?_⟩
    · simp only [runCalls, hstep]
      exact hrun
    · rw [hs, hspent1, sumCosts_cons]; ring
    · rw [htn, htc1]; simp only [List.length_cons]; omega

/-! ### Claim theorems: the ledger -/

/-- C1: `pre_check(e, model)` raises `BudgetExceeded` — carrying run id,
ceiling, projected spend `spent_usd + e` and the model — exactly when
`spent_usd + e >= max_usd` (strict `>=`: a boundary estimate fails), and in
both outcomes the tracker state is unchanged (the error carries the
untouched tracker; success returns it as is). -/
theorem pre_check_admission (t : BudgetTracker) (e : ℚ) (m : String) :
    (t.max_usd ≤ t.spent_usd + e →
      t.pre_check e m =
        .error (.budgetExceeded t.run_id t.max_usd (t.spent_usd + e) m, t)) ∧
    (t.spent_usd + e < t.max_usd → t.pre_check e m = .ok t) := by
  constructor
  · intro h
    unfold BudgetTracker.pre_check
    simp only [if_pos h]
  · intro h
    unfold BudgetTracker.pre_check
    simp only [if_neg (not_le.mpr h)]

/-- Witness for C1 at a fresh $10 tracker: an estimate of exactly the
remaining budget fails with the claimed payload, a smaller one passes. -/
theorem pre_check_admission_w :
    (mkBudgetTracker "r" 10 none).pre_check 10 "m" =
      .error (.budgetExceeded "r" 10 (0 + 10) "m", mkBudgetTracker "r" 10 none) ∧
    (mkBudgetTracker "r" 10 none).pre_check 5 "m" = .ok (mkBudgetTracker "r" 10 none) :=
  ⟨(pre_check_admission (mkBudgetTracker "r" 10 none) 10 "m").1 (by norm_num [mkBudgetTracker]),
   (pre_check_admission (mkBudgetTracker "r" 10 none) 5 "m").2 (by norm_num [mkBudgetTracker])⟩

/-- C3: every successful `record_call` leaves `spent_usd ≤ max_usd`, and a
commit that would overshoot the ceiling (with non-negative cost and the
turn guard passing) is not rejected: it succeeds and clamps `spent_usd` to
exactly `max_usd`. -/
theorem record_call_clamps (t : BudgetTracker) (i o : ℕ) (m : String) (c d : ℚ) :
    (∀ t', t.record_call i o m c d = .ok t' → t'.spent_usd ≤ t.max_usd) ∧
    (0 ≤ c → t.turnOk = true → t.max_usd < t.spent_usd + c →
      t.record_call i o m c d =
        .ok { t with
                spent_usd := t.max_usd
                turn_count := t.turn_count + 1
                calls := t.calls ++ [⟨i, o, m, c, d⟩] }) := by
  constructor
  · intro t' h
    obtain ⟨-, -, ht'⟩ := record_call_ok_cases h
    subst ht'
    dsimp only
    split
    · exact le_refl _
    · next hover => exact le_of_not_lt hover
  · intro hc ht hover
    rw [record_call_ok (not_lt.mpr hc) ht]
    simp only [if_pos hover]

/-- Witness for C3: a $7 commit against a $5 ceiling succeeds and clamps to
exactly $5. -/
theorem record_call_clamps_w :
    (mkBudgetTracker "r" 5 none).record_call 1 1 "m" 7 0 =
      .ok { mkBudgetTracker "r" 5 none with
              spent_usd := (mkBudgetTracker "r" 5 none).max_usd
              turn_count := (mkBudgetTracker "r" 5 none).turn_count + 1
              calls := (mkBudgetTracker "r" 5 none).calls ++ [⟨1, 1, "m", 7, 0⟩] } :=
  (record_call_clamps (mkBudgetTracker "r" 5 none) 1 1 "m" 7 0).2
    (by norm_num) (by decide) (by norm_num [mkBudgetTracker])

/-- C4: from a fresh tracker, any sequence of commits with non-negative
costs summing to `S ≤ max_usd`, of length within the configured turn limit,
all succeed and leave `spent_usd = S` and `turn_count = n`. -/
theorem fresh_run_accumulates (rid : String) (maxq : ℚ) (mt : Option ℕ)
    (args : List CallRecord)
    (hc : ∀ a ∈ args, 0 ≤ a.cost_usd)
    (hsum : sumCosts args ≤ maxq)
    (hturn : ∀ l, mt = some l → args.length ≤ l) :
    ∃ t, runCalls (mkBudgetTracker rid maxq mt) args = .ok t ∧
      t.spent_usd = sumCosts args ∧ t.turn_count = args.length := by
  obtain ⟨t, hrun, hs, htn⟩ := @runCalls_accumulates (mkBudgetTracker rid maxq mt)
    args hc
    (by simpa [mkBudgetTracker] using hsum)
    (by intro l hl; simp only [mkBudgetTracker] at hl ⊢; simpa using hturn l hl)
  refine ⟨t, hrun, ?_, ?_⟩
  · rw [hs]; simp [mkBudgetTracker]
  · rw [htn]; simp [mkBudgetTracker]

/-- Witness for C4: two commits of $2 and $3 against a $10 ceiling with a
turn limit of 5 accumulate to $5 spent across 2 turns. -/
theorem fresh_run_accumulates_w :
    ∃ t, runCalls (mkBudgetTracker "r" 10 (some 5))
        [⟨1, 1, "m", 2, 0⟩, ⟨1, 1, "m", 3, 0⟩] = .ok t ∧
      t.spent_usd = sumCosts [⟨1, 1, "m", 2, 0⟩, ⟨1, 1, "m", 3, 0⟩] ∧
      t.turn_count = ([⟨1, 1, "m", 2, 0⟩, ⟨1, 1, "m", 3, 0⟩] : List CallRecord).length :=
  fresh_run_accumulates "r" 10 (some 5) [⟨1, 1, "m", 2, 0⟩, ⟨1, 1, "m", 3, 0⟩]
    (by intro a ha; fin_cases ha <;> norm_num)
    (by norm_num [sumCosts])
    (by intro l hl; injection hl with h; subst h
        simp only [List.length_cons, List.length_nil]; omega)

/-- C5: with `max_turns` configured, after exactly `max_turns` successful
commits the next `record_call` (with non-negative cost, so the earlier
`ValueError` guard does not fire first) fails with a `TurnLimitExceeded`
condition carrying attempted turn `max_turns + 1`, raised before any
mutation: the error carries the tracker exactly as it was. -/
theorem turn_limit_blocks (rid : String) (maxq : ℚ) (l : ℕ)
    (args : List CallRecord) (t : BudgetTracker)
    (h : runCalls (mkBudgetTracker rid maxq (some l)) args = .ok t)
    (hlen : args.length = l) (i o : ℕ) (m : String) (c d : ℚ) (hc : 0 ≤ c) :
    t.record_call i o m c d = .error (.turnLimit rid l (l + 1), t) := by
  obtain ⟨hrid, -, hmt, htc, -⟩ := runCalls_ok_meta h
  simp only [mkBudgetTracker] at hrid hmt htc
  rw [hlen] at htc
  simp only [Nat.zero_add] at htc
  unfold BudgetTracker.record_call
  rw [if_neg (not_lt.mpr hc)]
  rw [hmt]
  simp only [htc, hrid]
  rw [if_pos (le_refl l)]

/-- Witness for C5: under `max_turns = 1`, after one successful $2 commit
the next commit fails with attempted turn 2 and an untouched ledger. -/
theorem turn_limit_blocks_w :
    ({ run_id := "r", max_usd := 10, max_turns := some 1, spent_usd := 2,
       turn_count := 1, calls := [⟨1, 1, "m", 2, 0⟩] } : BudgetTracker).record_call
        1 1 "m" 1 0 =
      .error (.turnLimit "r" 1 (1 + 1),
        { run_id := "r", max_usd := 10, max_turns := some 1, spent_usd := 2,
          turn_count := 1, calls := [⟨1, 1, "m", 2, 0⟩] }) :=
  turn_limit_blocks "r" 10 1 [⟨1, 1, "m", 2, 0⟩]
    { run_id := "r", max_usd := 10, max_turns := some 1, spent_usd := 2,
      turn_count := 1, calls := [⟨1, 1, "m", 2, 0⟩] }
    (by norm_num [runCalls, BudgetTracker.record_call, mkBudgetTracker])
    rfl 1 1 "m" 1 0 (by norm_num)

/-- C10 (implicit invariant): in every reachable tracker state
`turn_count = length of the call-record list`; a successful `record_call`
bumps the counter by exactly 1 and appends exactly one record, and no other
operation changes either — `pre_check` returns the tracker untouched on
success and carries it untouched on failure, and a failed `record_call`
carries it untouched too. -/
theorem turn_count_matches_ledger :
    (∀ t, ReachableTracker t → t.turn_count = t.calls.length) ∧
    (∀ (t r : BudgetTracker) (e : ℚ) (m : String),
      t.pre_check e m = .ok r → r = t) ∧
    (∀ (t r : BudgetTracker) (e : ℚ) (m : String) (err : TetherErr),
      t.pre_check e m = .error (err, r) → r = t) ∧
    (∀ (t r : BudgetTracker) (i o : ℕ) (m : String) (c d : ℚ) (err : TetherErr),
      t.record_call i o m c d = .error (err, r) → r = t) ∧
    (∀ (t t' : BudgetTracker) (i o : ℕ) (m : String) (c d : ℚ),
      t.record_call i o m c d = .ok t' →
        t'.turn_count = t.turn_count + 1 ∧ t'.calls = t.calls ++ [⟨i, o, m, c, d⟩]) := by
  refine ⟨?_, ?_, ?_, ?_, ?_⟩
  · intro t ht
    induction ht with
    | init rid maxq mt => simp [mkBudgetTracker]
    | step i o m c d hreach hok ih =>
      obtain ⟨-, -, ht'⟩ := record_call_ok_cases hok
      subst ht'
      simp [ih]
  · intro t r e m h
    unfold BudgetTracker.pre_check at h
    by_cases hle : t.max_usd ≤ t.spent_usd + e
    · simp only [if_pos hle] at h
      simp at h
    · simp only [if_neg hle] at h
      simpa using h.symm
  · intro t r e m err h
    unfold BudgetTracker.pre_check at h
    by_cases hle : t.max_usd ≤ t.spent_usd + e
    · simp only [if_pos hle, Except.error.injEq, Prod.mk.injEq] at h
      exact h.2.symm
    · simp only [if_neg hle] at h
      simp at h
  · intro t r i o m c d err h
    exact record_call_error_cases h
  · intro t t' i o m c d h
    obtain ⟨-, -, ht'⟩ := record_call_ok_cases h
    subst ht'
    exact ⟨rfl, rfl⟩

/-- Witness for C10 at a concrete two-step reachable state: counter and
ledger length agree, and the single-commit bookkeeping facts hold at a
concrete commit. -/
theorem turn_count_matches_ledger_w :
    ({ run_id := "r", max_usd := 10, max_turns := none, spent_usd := 2,
       turn_count := 1, calls := [⟨1, 1, "m", 2, 0⟩] } : BudgetTracker).turn_count =
      ({ run_id := "r", max_usd := 10, max_turns := none, spent_usd := 2,
         turn_count := 1, calls := [⟨1, 1, "m", 2, 0⟩] } : BudgetTracker).calls.length :=
  turn_count_matches_ledger.1
    { run_id := "r", max_usd := 10, max_turns := none, spent_usd := 2,
      turn_count := 1, calls := [⟨1, 1, "m", 2, 0⟩] }
    (ReachableTracker.step 1 1 "m" 2 0
      (ReachableTracker.init "r" 10 none)
      (by norm_num [BudgetTracker.record_call, mkBudgetTracker]))

/-! ### Claim theorems: pricing -/

/-- Reduction of a successful `Except` bind (the do-notation in
`estimate_call_cost`). -/
lemma except_bind_ok {e a b : Type} (x : a) (f : a → Except e b) :
    (Except.ok x >>= f) = f x := rfl

/-- Helper: the bundled lookup for `"gpt-4"` (its own alias resolution). -/
lemma get_input_cost_gpt4 : reg0.get_input_cost "gpt-4" = .ok (3/100) := by
  have h : resolve_model_alias "gpt-4" = "gpt-4" := by decide
  simp [PricingRegistry.get_input_cost, reg0, mkPricingRegistry, h,
    BUNDLED_PRICING, List.lookup]

lemma get_output_cost_gpt4 : reg0.get_output_cost "gpt-4" = .ok (6/100) := by
  have h : resolve_model_alias "gpt-4" = "gpt-4" := by decide
  simp [PricingRegistry.get_output_cost, reg0, mkPricingRegistry, h,
    BUNDLED_PRICING, List.lookup]

/-- C7, counterexample: the claimed formula multiplies the *output* unit
cost by the *input* token count.  On the bundled registry, for `"gpt-4"`
(input $0.03, output $0.06 per 1000 tokens) with 1000 input and 2000 output
tokens the code returns $0.15, while the claimed formula
`inputCost*inputTokens/1000 + outputCost*inputTokens/1000` gives $0.09. -/
theorem estimate_call_cost_cex :
    reg0.get_input_cost "gpt-4" = .ok (3/100) ∧
    reg0.get_output_cost "gpt-4" = .ok (6/100) ∧
    reg0.estimate_call_cost "gpt-4" 1000 2000 = .ok (3/20) ∧
    (3/20 : ℚ) ≠ (3/100) * 1000 / 1000 + (6/100) * 1000 / 1000 := by
  refine ⟨get_input_cost_gpt4, get_output_cost_gpt4, ?_, by norm_num⟩
  simp [PricingRegistry.estimate_call_cost, get_input_cost_gpt4, get_output_cost_gpt4,
    except_bind_ok]
  norm_num

/-- C7 as amended: for every model the registry prices (both unit-cost
lookups succeed) and all token counts,
`estimate_call_cost = inputCost*inputTokens/1000 + outputCost*outputTokens/1000`
— linear, per-1000-token, with the *output* cost applied to the *output*
token count. -/
theorem estimate_call_cost_linear (reg : PricingRegistry) (model : String)
    (itok otok : ℕ) (i o : ℚ)
    (hi : reg.get_input_cost model = .ok i)
    (ho : reg.get_output_cost model = .ok o) :
    reg.estimate_call_cost model itok otok =
      .ok (i * itok / 1000 + o * otok / 1000) := by
  simp [PricingRegistry.estimate_call_cost, hi, ho, except_bind_ok]

/-- Witness for the amended C7 on the bundled `"gpt-4"` entry. -/
theorem estimate_call_cost_linear_w :
    reg0.estimate_call_cost "gpt-4" 1000 2000 =
      .ok ((3/100) * (1000 : ℕ) / 1000 + (6/100) * (2000 : ℕ) / 1000) :=
  estimate_call_cost_linear reg0 "gpt-4" 1000 2000 (3/100) (6/100)
    get_input_cost_gpt4 get_output_cost_gpt4

/-- C8, counterexample: `register_custom_model` stores the overlay entry
under the raw key, but lookups resolve aliases *first*; for the alias key
`"gpt4o"` (which resolves to `"gpt-4o"`), registering custom costs
$(1, 2)$ under `"gpt4o"` and then looking `"gpt4o"` up serves the *bundled*
`"gpt-4o"` entry $(0.0025, 0.01)$, not the overlay. -/
theorem custom_overlay_alias_cex :
    (reg0.register_custom_model "gpt4o" 1 2).get_input_cost "gpt4o" = .ok (25/10000) ∧
    (reg0.register_custom_model "gpt4o" 1 2).get_output_cost "gpt4o" = .ok (1/100) ∧
    (25/10000 : ℚ) ≠ 1 ∧ (1/100 : ℚ) ≠ 2 := by
  have h : resolve_model_alias "gpt4o" = "gpt-4o" := by decide
  refine ⟨?_, ?_, by norm_num, by norm_num⟩
  · simp [PricingRegistry.get_input_cost, PricingRegistry.register_custom_model,
      reg0, mkPricingRegistry, h, BUNDLED_PRICING, List.lookup]
  · simp [PricingRegistry.get_output_cost, PricingRegistry.register_custom_model,
      reg0, mkPricingRegistry, h, BUNDLED_PRICING, List.lookup]

/-- C8 as amended: for a key that is its own alias resolution
(`resolve_model_alias m = m` — every key that is not an alias-table
shorthand), registering overlay costs makes both subsequent lookups serve
the overlay, regardless of any bundled entry for the same key. -/
theorem custom_overlay_shadows (reg : PricingRegistry) (m : String) (i o : ℚ)
    (h : resolve_model_alias m = m) :
    (reg.register_custom_model m i o).get_input_cost m = .ok i ∧
    (reg.register_custom_model m i o).get_output_cost m = .ok o := by
  constructor
  · simp [PricingRegistry.get_input_cost, PricingRegistry.register_custom_model, h]
  · simp [PricingRegistry.get_output_cost, PricingRegistry.register_custom_model, h]

/-- Witness for the amended C8: `"gpt-4"` is its own resolution and is in
the bundled table, yet after registration the overlay costs win. -/
theorem custom_overlay_shadows_w :
    (reg0.register_custom_model "gpt-4" 1 2).get_input_cost "gpt-4" = .ok 1 ∧
    (reg0.register_custom_model "gpt-4" 1 2).get_output_cost "gpt-4" = .ok 2 :=
  custom_overlay_shadows reg0 "gpt-4" 1 2 (by decide)

/-! ### Claim theorems: the interceptor -/

lemma get_input_cost_gpt4o : reg0.get_input_cost "gpt-4o" = .ok (25/10000) := by
  have h : resolve_model_alias "gpt-4o" = "gpt-4o" := by decide
  simp [PricingRegistry.get_input_cost, reg0, mkPricingRegistry, h,
    BUNDLED_PRICING, List.lookup]

lemma get_output_cost_gpt4o : reg0.get_output_cost "gpt-4o" = .ok (1/100) := by
  have h : resolve_model_alias "gpt-4o" = "gpt-4o" := by decide
  simp [PricingRegistry.get_output_cost, reg0, mkPricingRegistry, h,
    BUNDLED_PRICING, List.lookup]

/-- C6: when the admission pre-check fails inside an intercepted call, the
`BudgetExceeded` exception propagates as is, the collector (hence the
active trace) is untouched — the span is only built after the pre-check —
the wrapped operation is never invoked, and the tracker is unchanged. -/
theorem pre_check_failure_aborts (reg : PricingRegistry) (tracker : BudgetTracker)
    (collector : TraceCollector) (model : String) (countRes : Except Unit ℕ)
    (invoke : Except Unit Response) (dur : ℚ) (preview : Option String)
    (h : tracker.max_usd ≤ tracker.spent_usd + estimatedCost reg model (tokensOf countRes)) :
    interceptCall reg tracker collector model countRes invoke dur preview =
      ⟨tracker, collector,
        .error (.tether (.budgetExceeded tracker.run_id tracker.max_usd
          (tracker.spent_usd + estimatedCost reg model (tokensOf countRes)) model)),
        false⟩ := by
  have hpc : tracker.pre_check (estimatedCost reg model (tokensOf countRes)) model =
      .error (.budgetExceeded tracker.run_id tracker.max_usd
        (tracker.spent_usd + estimatedCost reg model (tokensOf countRes)) model,
        tracker) := by
    unfold BudgetTracker.pre_check
    simp only [if_pos h]
  unfold interceptCall
  simp only [hpc]

/-- Witness for C6: a tracker whose ceiling is already consumed rejects
even a zero-cost estimate, with no span and no invocation. -/
theorem pre_check_failure_aborts_w :
    interceptCall reg0 (mkBudgetTracker "run" 0 none) col0 "gpt-4o"
        (.ok 0) (.ok resp0) 1 none =
      ⟨mkBudgetTracker "run" 0 none, col0,
        .error (.tether (.budgetExceeded "run" 0
          (0 + estimatedCost reg0 "gpt-4o" (tokensOf (.ok 0))) "gpt-4o")),
        false⟩ :=
  pre_check_failure_aborts reg0 (mkBudgetTracker "run" 0 none) col0 "gpt-4o"
    (.ok 0) (.ok resp0) 1 none
    (by
      have : estimatedCost reg0 "gpt-4o" (tokensOf (.ok 0)) = 0 := by
        simp [estimatedCost, tokensOf, get_input_cost_gpt4o, get_output_cost_gpt4o,
          except_bind_ok]
      rw [this]
      norm_num [mkBudgetTracker])

lemma estimate_call_cost_gpt4o_100_50 :
    reg0.estimate_call_cost "gpt-4o" 100 50 = .ok (3/4000) := by
  simp [PricingRegistry.estimate_call_cost, get_input_cost_gpt4o,
    get_output_cost_gpt4o, except_bind_ok]
  norm_num

lemma estimatedCost_gpt4o_100 : estimatedCost reg0 "gpt-4o" 100 = 17/4000 := by
  simp [estimatedCost, get_input_cost_gpt4o, get_output_cost_gpt4o, except_bind_ok]
  norm_num

lemma tracker0_pre_check :
    tracker0.pre_check (17/4000) "gpt-4o" = .ok tracker0 := by
  unfold BudgetTracker.pre_check
  have : ¬ tracker0.max_usd ≤ tracker0.spent_usd + 17/4000 := by
    norm_num [tracker0, mkBudgetTracker]
  simp only [if_neg this]

lemma tracker0_record_call :
    tracker0.record_call 100 50 "gpt-4o" (3/4000) 1 =
      .error (.turnLimit "run" 0 1, tracker0) := by
  unfold BudgetTracker.record_call
  have h1 : ¬ ((3:ℚ)/4000 < 0) := by norm_num
  simp only [if_neg h1]
  rfl

/-- C2, counterexample: with the turn limit already exhausted
(`max_turns = 0`) but an open dollar budget, an intercepted call whose
wrapped invocation succeeds reaches the ledger-commit step, `record_call`
raises `TurnLimitExceeded` — and on *both* the generic and the crewai
interception paths the call still returns the response: the commit-step
exception is swallowed (`except Exception: pass`; the crewai path re-raises
only `BudgetExceededError`), not propagated. -/
theorem commit_swallow_cex :
    tracker0.record_call 100 50 "gpt-4o" (3/4000) 1 =
      .error (.turnLimit "run" 0 1, tracker0) ∧
    reg0.estimate_call_cost "gpt-4o" 100 50 = .ok (3/4000) ∧
    (interceptCall reg0 tracker0 col0 "gpt-4o" (.ok 100) (.ok resp0) 1 none).result =
      .ok resp0 ∧
    (interceptCrewaiCall reg0 tracker0 col0 "gpt-4o" (.ok 100) (.ok resp0) none 1 none).result =
      .ok resp0 := by
  refine ⟨tracker0_record_call, estimate_call_cost_gpt4o_100_50, ?_, ?_⟩
  · unfold interceptCall
    simp only [tokensOf, estimatedCost_gpt4o_100, tracker0_pre_check, usageOf,
      resp0, estimate_call_cost_gpt4o_100_50, tracker0_record_call]
  · unfold interceptCrewaiCall
    simp only [tokensOf, estimatedCost_gpt4o_100, tracker0_pre_check, crewaiUsageOf,
      resp0, estimate_call_cost_gpt4o_100_50, tracker0_record_call]

/-- C2 as amended: when the wrapped invocation succeeds, admission passed,
the response reports usage, the pricing of the actual usage succeeds, and
the ledger-commit `record_call` raises anything that is not a
`BudgetExceededError` (it can only raise `TurnLimitExceeded` or the
negative-cost `ValueError`), the exception is *swallowed* on both the
generic and the crewai interception paths and the wrapped response is
returned to the caller.  (Only the crewai path would re-raise a
`BudgetExceededError` from the commit step, which `record_call` never
raises.) -/
theorem commit_step_swallows (reg : PricingRegistry) (tracker : BudgetTracker)
    (collector : TraceCollector) (model : String) (countRes : Except Unit ℕ)
    (resp : Response) (p c : ℕ) (summary : Option (ℕ × ℕ)) (dur : ℚ)
    (preview : Option String) (cost : ℚ) (err : TetherErr) (t2 : BudgetTracker)
    (husage : resp.usage = some (p, c))
    (hpass : tracker.spent_usd + estimatedCost reg model (tokensOf countRes) <
      tracker.max_usd)
    (hcost : reg.estimate_call_cost model p c = .ok cost)
    (hcommit : tracker.record_call p c model cost dur = .error (err, t2))
    (hnb : ∀ a b q m, err ≠ .budgetExceeded a b q m) :
    (interceptCall reg tracker collector model countRes (.ok resp) dur preview).result =
      .ok resp ∧
    (interceptCrewaiCall reg tracker collector model countRes (.ok resp) summary
        dur preview).result = .ok resp := by
  have hpc : tracker.pre_check (estimatedCost reg model (tokensOf countRes)) model =
      .ok tracker := by
    unfold BudgetTracker.pre_check
    simp only [if_neg (not_le.mpr hpass)]
  have hu : usageOf (tokensOf countRes) resp = (p, c) := by
    simp [usageOf, husage]
  have hcu : crewaiUsageOf (tokensOf countRes) resp summary = (p, c) := by
    simp [crewaiUsageOf, husage]
  constructor
  · unfold interceptCall
    simp only [hpc, hu, hcost, hcommit]
  · cases err with
    | budgetExceeded a b q m => exact absurd rfl (hnb a b q m)
    | turnLimit a b q =>
      unfold interceptCrewaiCall
      simp only [hpc, hcu, hcost, hcommit]
    | valueError m =>
      unfold interceptCrewaiCall
      simp only [hpc, hcu, hcost, hcommit]
    | unknownModel m =>
      unfold interceptCrewaiCall
      simp only [hpc, hcu, hcost, hcommit]
    | tetherBase m =>
      unfold interceptCrewaiCall
      simp only [hpc, hcu, hcost, hcommit]

/-- Witness for the amended C2 at the exhausted-turn-limit scenario. -/
theorem commit_step_swallows_w :
    (interceptCall reg0 tracker0 col0 "gpt-4o" (.ok 100) (.ok resp0) 1 none).result =
      .ok resp0 ∧
    (interceptCrewaiCall reg0 tracker0 col0 "gpt-4o" (.ok 100) (.ok resp0) none 1
        none).result = .ok resp0 :=
  commit_step_swallows reg0 tracker0 col0 "gpt-4o" (.ok 100) resp0 100 50 none 1
    none (3/4000) (.turnLimit "run" 0 1) tracker0
    rfl
    (by rw [show tokensOf (.ok 100) = 100 from rfl, estimatedCost_gpt4o_100]
        norm_num [tracker0, mkBudgetTracker])
    estimate_call_cost_gpt4o_100_50
    tracker0_record_call
    (by intro a b q m h; cases h)

/-! ### Claim theorems: concurrency -/

namespace Conc

/-- Bookkeeping for `totalDone` under a single thread-state update. -/
lemma sum_doneOf_update {N : ℕ} (th : Fin N → Phase) (i : Fin N) (p : Phase) :
    (∑ j, (Function.update th i p j).doneOf) + (th i).doneOf
      = (∑ j, (th j).doneOf) + p.doneOf := by
  have hfun : (fun j => (Function.update th i p j).doneOf)
      = Function.update (fun k => (th k).doneOf) i p.doneOf := by
    funext j
    by_cases hj : j = i
    · subst hj; simp
    · simp [Function.update_noteq hj]
  calc (∑ j, (Function.update th i p j).doneOf) + (th i).doneOf
      = (∑ j, Function.update (fun k => (th k).doneOf) i p.doneOf j) + (th i).doneOf := by
        rw [← hfun]
    _ = (p.doneOf + ∑ j in Finset.univ.erase i, (th j).doneOf) + (th i).doneOf := by
        rw [Finset.sum_update_of_mem (Finset.mem_univ i),
          Finset.sdiff_singleton_eq_erase]
    _ = ((th i).doneOf + ∑ j in Finset.univ.erase i, (th j).doneOf) + p.doneOf := by omega
    _ = (∑ j, (th j).doneOf) + p.doneOf := by
        rw [Finset.add_sum_erase Finset.univ (fun k => (th k).doneOf) (Finset.mem_univ i)]

/-- The clamp of `record_call` advances `min(D·C, maxq)` by one commit. -/
lemma clamp_min_step (D : ℕ) (C maxq : ℚ) (hC : 0 ≤ C) (hmax : 0 ≤ maxq) :
    (if maxq < min ((D : ℚ) * C) maxq + C then maxq else min ((D : ℚ) * C) maxq + C)
      = min (((D + 1 : ℕ) : ℚ) * C) maxq := by
  have hD1 : (((D + 1 : ℕ) : ℚ)) * C = (D : ℚ) * C + C := by push_cast; ring
  rcases le_or_lt ((D : ℚ) * C) maxq with hx | hx
  · rw [min_eq_left hx]
    rcases le_or_lt ((D : ℚ) * C + C) maxq with hy | hy
    · rw [if_neg (not_lt.mpr hy), hD1, min_eq_left hy]
    · rw [if_pos hy, hD1]
      exact (min_eq_right (le_of_lt hy)).symm
  · rw [min_eq_right (le_of_lt hx)]
    rcases hC.lt_or_eq with hCpos | hC0
    · rw [if_pos (by linarith)]
      have hle : maxq ≤ ((D + 1 : ℕ) : ℚ) * C := by rw [hD1]; linarith
      exact (min_eq_right hle).symm
    · exfalso
      rw [← hC0, mul_zero] at hx
      linarith

/-- The invariant holds initially. -/
lemma inv_init (N : ℕ) (C maxq : ℚ) (hmax : 0 ≤ maxq) : Inv C maxq (initC N) := by
  constructor
  · intro _
    have htd : totalDone (initC N) = 0 := by
      simp [totalDone, initC, Phase.doneOf]
    refine ⟨fun i => ⟨0, rfl⟩, ?_, ?_, ?_⟩
    · rw [htd]
      simp [initC, min_eq_left hmax]
    · rw [htd]; rfl
    · rw [htd]; rfl
  · intro i hi
    simp [initC] at hi

@[simp] lemma doneOf_outside (d : ℕ) : (Phase.outside d).doneOf = d := rfl

@[simp] lemma doneOf_reading (d : ℕ) : (Phase.reading d).doneOf = d := rfl

@[simp] lemma doneOf_adding (d : ℕ) (tmp : ℚ) : (Phase.adding d tmp).doneOf = d := rfl

@[simp] lemma doneOf_bumping (d : ℕ) : (Phase.bumping d).doneOf = d := rfl

@[simp] lemma doneOf_committing (d : ℕ) : (Phase.committing d).doneOf = d := rfl

/-- Every scheduler step preserves the invariant. -/
lemma inv_step {N K : ℕ} {C maxq : ℚ} (hC : 0 ≤ C) (hmax : 0 ≤ maxq)
    {s s' : CState N} (hinv : Inv C maxq s) (hstep : CStep N K C maxq s s') :
    Inv C maxq s' := by
  obtain ⟨hfree, hheld⟩ := hinv
  cases hstep with
  | acquire i d hth hd hlock =>
    obtain ⟨hout, hspent, hturn, hncalls⟩ := hfree hlock
    have htd : totalDone
        { s with lock := some i, th := Function.update s.th i (.reading d) }
        = totalDone s := by
      have h := sum_doneOf_update s.th i (.reading d)
      rw [hth, doneOf_outside, doneOf_reading] at h
      simp only [totalDone]
      omega
    constructor
    · intro h; exact absurd h (by simp)
    · intro i' hi'
      dsimp only at hi'
      rw [Option.some.injEq] at hi'
      subst hi'
      dsimp only
      refine ⟨?_, ?_, ?_, ?_, ?_, ?_⟩
      · intro j hj
        rw [Function.update_noteq hj]
        exact hout j
      · intro _
        rw [htd]
        exact ⟨hspent, hturn, hncalls⟩
      · intro d' tmp h
        rw [Function.update_same] at h
        cases h
      · rintro ⟨d', h⟩
        rw [Function.update_same] at h
        cases h
      · rintro ⟨d', h⟩
        rw [Function.update_same] at h
        cases h
      · intro d' h
        rw [Function.update_same] at h
        cases h
  | read i d hth hlock =>
    obtain ⟨hoth, hread, -, -, -, -⟩ := hheld i hlock
    obtain ⟨hspent, hturn, hncalls⟩ := hread ⟨d, hth⟩
    have htd : totalDone
        { s with th := Function.update s.th i (.adding d s.spent) }
        = totalDone s := by
      have h := sum_doneOf_update s.th i (.adding d s.spent)
      rw [hth, doneOf_reading, doneOf_adding] at h
      simp only [totalDone]
      omega
    constructor
    · intro h
      dsimp only at h
      rw [hlock] at h
      cases h
    · intro i' hi'
      dsimp only at hi'
      rw [hlock, Option.some.injEq] at hi'
      subst hi'
      dsimp only
      refine ⟨?_, ?_, ?_, ?_, ?_, ?_⟩
      · intro j hj
        rw [Function.update_noteq hj]
        exact hoth j hj
      · rintro ⟨d', h⟩
        rw [Function.update_same] at h
        cases h
      · intro d' tmp h
        rw [Function.update_same] at h
        injection h with h1 h2
        subst h1; subst h2
        rw [htd]
        exact ⟨rfl, hspent, hturn, hncalls⟩
      · rintro ⟨d', h⟩
        rw [Function.update_same] at h
        cases h
      · rintro ⟨d', h⟩
        rw [Function.update_same] at h
        cases h
      · intro d' h
        rw [Function.update_same] at h
        cases h
  | add i d tmp hth hlock =>
    obtain ⟨hoth, -, hadd, -, -, -⟩ := hheld i hlock
    obtain ⟨htmp, hspent, hturn, hncalls⟩ := hadd d tmp hth
    have htd : totalDone
        { s with spent := tmp + C, th := Function.update s.th i (.bumping d) }
        = totalDone s := by
      have h := sum_doneOf_update s.th i (.bumping d)
      rw [hth, doneOf_adding, doneOf_bumping] at h
      simp only [totalDone]
      omega
    constructor
    · intro h
      dsimp only at h
      rw [hlock] at h
      cases h
    · intro i' hi'
      dsimp only at hi'
      rw [hlock, Option.some.injEq] at hi'
      subst hi'
      dsimp only
      refine ⟨?_, ?_, ?_, ?_, ?_, ?_⟩
      · intro j hj
        rw [Function.update_noteq hj]
        exact hoth j hj
      · rintro ⟨d', h⟩
        rw [Function.update_same] at h
        cases h
      · intro d' tmp' h
        rw [Function.update_same] at h
        cases h
      · intro _
        rw [htd]
        exact ⟨by rw [htmp, hspent], hturn, hncalls⟩
      · rintro ⟨d', h⟩
        rw [Function.update_same] at h
        cases h
      · intro d' h
        rw [Function.update_same] at h
        cases h
  | bump i d hth hlock =>
    obtain ⟨hoth, -, -, hbump, -, -⟩ := hheld i hlock
    obtain ⟨hspent, hturn, hncalls⟩ := hbump ⟨d, hth⟩
    have htd : totalDone
        { s with turn := s.turn + 1, th := Function.update s.th i (.committing d) }
        = totalDone s := by
      have h := sum_doneOf_update s.th i (.committing d)
      rw [hth, doneOf_bumping, doneOf_committing] at h
      simp only [totalDone]
      omega
    constructor
    · intro h
      dsimp only at h
      rw [hlock] at h
      cases h
    · intro i' hi'
      dsimp only at hi'
      rw [hlock, Option.some.injEq] at hi'
      subst hi'
      dsimp only
      refine ⟨?_, ?_, ?_, ?_, ?_, ?_⟩
      · intro j hj
        rw [Function.update_noteq hj]
        exact hoth j hj
      · rintro ⟨d', h⟩
        rw [Function.update_same] at h
        cases h
      · intro d' tmp' h
        rw [Function.update_same] at h
        cases h
      · rintro ⟨d', h⟩
        rw [Function.update_same] at h
        cases h
      · intro _
        rw [htd]
        exact ⟨hspent, by omega, hncalls⟩
      · intro d' h
        rw [Function.update_same] at h
        cases h
  | commit i d hth hlock =>
    obtain ⟨hoth, -, -, -, hcom, -⟩ := hheld i hlock
    obtain ⟨hspent, hturn, hncalls⟩ := hcom ⟨d, hth⟩
    have htd : totalDone
        ({ spent := if maxq < s.spent then maxq else s.spent, turn := s.turn,
           ncalls := s.ncalls + 1, lock := none,
           th := Function.update s.th i (.outside (d + 1)) } : CState N)
        = totalDone s + 1 := by
      have h := sum_doneOf_update s.th i (.outside (d + 1))
      rw [hth, doneOf_committing, doneOf_outside] at h
      simp only [totalDone]
      omega
    constructor
    · intro _
      dsimp only
      refine ⟨?_, ?_, ?_, ?_⟩
      · intro j
        by_cases hj : j = i
        · subst hj
          exact ⟨d + 1, by rw [Function.update_same]⟩
        · rw [Function.update_noteq hj]
          exact hoth j hj
      · rw [htd, hspent]
        exact clamp_min_step (totalDone s) C maxq hC hmax
      · rw [htd]
        omega
      · rw [htd]
        omega
    · intro i' hi'
      cases hi'

/-- C9: N threads each performing K `record_call` commits of the same
non-negative cost `C` against one tracker (ceiling `maxq ≥ 0`, no turn
limit) — with the lock-protected read-modify-write split into micro-steps
and threads interleaved by an arbitrary scheduler — always terminate with
`spent = min(N·K·C, maxq)`, `turn_count = N·K` and `N·K` ledger records:
the mutual exclusion of the critical section admits no lost update and no
torn intermediate read, in exact rational arithmetic. -/
theorem concurrent_commits (N K : ℕ) (C maxq : ℚ) (hC : 0 ≤ C) (hmax : 0 ≤ maxq)
    (s : CState N) (hreach : CReach N K C maxq s)
    (hfin : ∀ i, s.th i = .outside K) :
    s.spent = min (((N * K : ℕ) : ℚ) * C) maxq ∧ s.turn = N * K ∧
      s.ncalls = N * K := by
  have hinv : Inv C maxq s := by
    clear hfin
    induction hreach with
    | init => exact inv_init N C maxq hmax
    | step hr hst ih => exact inv_step hC hmax ih hst
  have hlock : s.lock = none := by
    cases hsl : s.lock with
    | none => rfl
    | some i =>
      have hni := (hinv.2 i hsl).2.2.2.2.2
      exact absurd (hfin i) (hni K)
  obtain ⟨-, hspent, hturn, hncalls⟩ := hinv.1 hlock
  have htd : totalDone s = N * K := by
    unfold totalDone
    calc (∑ i, (s.th i).doneOf) = ∑ _i : Fin N, K :=
          Finset.sum_congr rfl (fun i _ => by rw [hfin i, doneOf_outside])
      _ = N * K := by
          rw [Finset.sum_const, Finset.card_univ, Fintype.card_fin, smul_eq_mul]
  rw [htd] at hspent hturn hncalls
  exact ⟨hspent, hturn, hncalls⟩

/-- Witness for C9: the written-out one-thread, one-commit execution
(cost 1, ceiling 3) ends with spent = min(1·1·1, 3) = 1 after 1 turn and
1 ledger record. -/
theorem concurrent_commits_w :
    cs5.spent = min (((1 * 1 : ℕ) : ℚ) * 1) 3 ∧ cs5.turn = 1 * 1 ∧
      cs5.ncalls = 1 * 1 :=
  concurrent_commits 1 1 1 3 (by norm_num) (by norm_num) cs5
    (CReach.step
      (CReach.step
        (CReach.step
          (CReach.step
            (CReach.step CReach.init
              (CStep.acquire 0 0 rfl (by decide) rfl))
            (CStep.read 0 0 rfl rfl))
          (CStep.add 0 0 cs1.spent rfl rfl))
        (CStep.bump 0 0 rfl rfl))
      (CStep.commit 0 0 rfl rfl))
    (by intro i; fin_cases i; rfl)

end Conc

end TetherAI
